import Mathlib

/-!
Verification of the SDLang decode layer (`src/parse.rs`, `src/lib.rs`,
`src/types.rs`) against its natural-language specification.

The decoders receive a syntax tree produced by an external grammar engine
(the grammar module itself is not part of the sources here, so the shape of
syntax nodes is modelled from the spec).  Rust panics (`unwrap` on malformed
trees, `unreachable!` branches) are modelled as `none`; a returned
`Result<T, ParseError>` is modelled as `some (Except.ok v)` or
`some (Except.error e)`.
-/

namespace SDLang

/-- Character constants, written via code points to keep the source plain. -/
def bslashC : Char := Char.ofNat 92

/-- The double-quote character. -/
def dquoteC : Char := Char.ofNat 34

/-- The apostrophe character. -/
def squoteC : Char := Char.ofNat 39

/-- The backtick character, the raw-string delimiter. -/
def btickC : Char := Char.ofNat 96

/-- The newline character. -/
def nlC : Char := Char.ofNat 10

/-- The carriage-return character. -/
def crC : Char := Char.ofNat 13

/-- The tab character. -/
def tabC : Char := Char.ofNat 9

/-- The NUL character. -/
def nulC : Char := Char.ofNat 0

/-- Byte-offset span of a syntax node in the original input, as exposed by
the grammar engine (`pest::Span`). -/
structure Span where
  start : Nat
  stop : Nat
deriving DecidableEq, Repr

/-- A reported parse/decode error: a diagnostic message plus the offending
span (`parse_err(message, span)` in `src/grammar.rs`, modelled from the
spec: one error type carrying a message and a source span). -/
structure ParseError where
  msg : String
  espan : Span
deriving DecidableEq, Repr

/-- Result of running a decoder: `none` models a Rust panic
(`unwrap` / `unreachable!`), `some (Except.error e)` a returned
`Err(ParseError)`, and `some (Except.ok v)` a returned `Ok(v)`. -/
abbrev Res (α : Type) : Type := Option (Except ParseError α)

/-- A decoder returning `Ok(v)`. -/
def Res.ok {α : Type} (a : α) : Res α := some (Except.ok a)

/-- A decoder returning `Err(e)`. -/
def Res.err {α : Type} (e : ParseError) : Res α := some (Except.error e)

/-- A decoder panicking. -/
def Res.panic {α : Type} : Res α := none

/-- Sequencing of decoders: panics and errors propagate (`?` in Rust). -/
def Res.bind {α β : Type} : Res α → (α → Res β) → Res β
  | none, _ => none
  | some (Except.error e), _ => some (Except.error e)
  | some (Except.ok a), f => f a

/-- Grammar productions, as referenced by `src/parse.rs`.
Modelled from the spec: the grammar module (`src/grammar.rs`) is not among
the sources; the variants are those matched on by the decoders, plus the
leaf productions the spec describes (numeral text, suffix text, the UTC
marker, base64 character runs, the fractional-seconds sub-node).
`nspace` stands for the source's `Rule::namespace` (a keyword here). -/
inductive Rule where
  | string | date | time | datetime | duration | number | decimal
  | boolean | base64 | null
  | value | ident | attribute | nspace | tag | tags | tagtree
  | days | bool_true | bool_false
  | numeral | suffix | utc | b64chars | msecs
deriving DecidableEq, Repr

/-- A syntax node handed back by the grammar engine (`pest::iterators::Pair`):
the matched production, the exact matched substring, its span, and the
ordered child nodes.  Modelled from the spec (§6): the engine itself is an
external collaborator. -/
inductive ParseTree where
  | node (rule : Rule) (text : String) (span : Span) (children : List ParseTree)

/-- The production a node matched (`Pair::as_rule`). -/
def ParseTree.rule : ParseTree → Rule
  | .node r _ _ _ => r

/-- The matched substring (`Pair::as_str`). -/
def ParseTree.text : ParseTree → String
  | .node _ t _ _ => t

/-- The node's span (`Pair::as_span`). -/
def ParseTree.span : ParseTree → Span
  | .node _ _ s _ => s

/-- The ordered child nodes (`Pair::into_inner`). -/
def ParseTree.children : ParseTree → List ParseTree
  | .node _ _ _ cs => cs

/-! ### Integer text parsing (Rust `str::parse` for integer types) -/

/-- Value of a list of ASCII digits; `none` if empty or a non-digit occurs.
Models the digit accumulation of Rust's integer `FromStr`. -/
def digitsVal : List Char → Option Nat
  | [] => none
  | cs => go cs 0
where
  /-- Accumulate digits left to right. -/
  go : List Char → Nat → Option Nat
    | [], acc => some acc
    | c :: rest, acc =>
      if c.isDigit then go rest (acc * 10 + (c.toNat - 48)) else none

/-- Rust integer `FromStr` without the width check: an optional `+`/`-`
sign followed by one or more ASCII digits. -/
def parseIntText (s : String) : Option Int :=
  match s.data with
  | c :: rest =>
    if c = '+' then (digitsVal rest).map Int.ofNat
    else if c = '-' then (digitsVal rest).map (fun n => -(n : Int))
    else (digitsVal (c :: rest)).map Int.ofNat
  | [] => none

/-- Rust `text.parse::<iN>()` for bit width `w`: parse, then range-check
against the two's-complement range (overflow is a parse error in Rust). -/
def parseSigned (w : Nat) (s : String) : Option Int :=
  match parseIntText s with
  | some n => if -(2 ^ (w - 1) : Int) ≤ n ∧ n ≤ 2 ^ (w - 1) - 1 then some n else none
  | none => none

/-- Rust `text.parse::<u32>()`: optional `+`, digits, range check. -/
def parseU32 (s : String) : Option Nat :=
  match s.data with
  | c :: rest =>
    match if c = '+' then digitsVal rest else digitsVal (c :: rest) with
    | some n => if n ≤ 2 ^ 32 - 1 then some n else none
    | none => none
  | [] => none

/-! ### The number decoder (`parse.rs::number`) -/

/-- The overflow diagnostic built by `number` (`format!` at
`src/parse.rs:125`). -/
def numberErrMsg (text : String) : String :=
  "Error in parsing '" ++ text ++ "' as a number (too large?)"

/-- Wrap the outcome of a width-checked integer parse the way `number`
does: success is widened into the `i128` container, failure becomes a
`ParseError` naming the literal text. -/
def numberWrap (text : String) (sp : Span) : Option Int → Res Int
  | some n => Res.ok n
  | none => Res.err ⟨numberErrMsg text, sp⟩

/-- The number decoder (`src/parse.rs:113`): the first child is the numeral,
the optional second child the suffix; no suffix parses at 32 bits, `L` at
64 bits, `BD` at the full 128-bit container width; any other suffix is the
`unreachable!` branch. -/
def number (tree : ParseTree) : Res Int :=
  match tree.children with
  | [] => Res.panic
  | num :: rest =>
    let text := num.text
    match rest.head? with
    | none => numberWrap text num.span (parseSigned 32 text)
    | some suf =>
      if suf.text = "L" then numberWrap text num.span (parseSigned 64 text)
      else if suf.text = "BD" then numberWrap text num.span (parseSigned 128 text)
      else Res.panic

/-- Convenience constructor for a number syntax node with numeral text `t`
and an optional suffix node. -/
def mkNumberNode (t : String) (suf : Option String) (sp : Span) : ParseTree :=
  ParseTree.node Rule.number t sp
    (ParseTree.node Rule.numeral t sp [] ::
      (match suf with
       | none => []
       | some s => [ParseTree.node Rule.suffix s sp []]))

/-! ### The string decoder (`parse.rs::string`) -/

/-- The escape table of `string` (`src/parse.rs:34`): `none` is the
`unreachable!` arm (an escape character outside the grammar alphabet). -/
def escChar (ch : Char) : Option Char :=
  if ch = nlC then some nlC
  else if ch = 'n' then some nlC
  else if ch = 'r' then some crC
  else if ch = 't' then some tabC
  else if ch = bslashC then some bslashC
  else if ch = '0' then some nulC
  else if ch = dquoteC then some dquoteC
  else if ch = squoteC then some squoteC
  else none

/-- The escape-processing fold of `string` (`src/parse.rs:31`): a pending
escape flag, output accumulated left to right; a backslash sets the flag
and emits nothing; under the flag the next character goes through the
table; `none` models the panic on a character outside the table.  The fold
returns the accumulator even if the flag is still pending at the end. -/
def strFold : List Char → Bool → List Char → Option (List Char)
  | [], _, acc => some acc
  | ch :: rest, true, acc =>
    match escChar ch with
    | some c => strFold rest false (acc ++ [c])
    | none => none
  | ch :: rest, false, acc =>
    if ch = bslashC then strFold rest true acc
    else strFold rest false (acc ++ [ch])

/-- The string decoder (`src/parse.rs:16`): the interior is the matched
text minus one delimiter character at each end (the source computes the
interior length from the span, identical for grammar-produced nodes); a
backtick delimiter means a raw string returned unchanged, otherwise the
escape fold runs.  The `unwrap` on the first character of empty text, and
the `unreachable!` inside the fold, are panics. -/
def string (tree : ParseTree) : Res String :=
  match tree with
  | .node _ text sp _ =>
    let len := sp.stop - 1 - (sp.start + 1)
    let interior := (text.data.drop 1).take len
    match text.data with
    | [] => Res.panic
    | c :: _ =>
      if c = btickC then Res.ok ⟨interior⟩
      else
        match strFold interior false [] with
        | some res => Res.ok ⟨res⟩
        | none => Res.panic

/-- String node with delimiter `d` around interior `interior`, with the
span consistent with the text as the grammar engine guarantees. -/
def mkStringNode (d : Char) (interior : List Char) : ParseTree :=
  ParseTree.node Rule.string ⟨d :: interior ++ [d]⟩
    ⟨0, interior.length + 2⟩ []

/-! ### Dates, times, datetimes (`parse.rs::date/time/datetime`) -/

/-- A calendar date (chrono `NaiveDate`), year/month/day. -/
structure Date where
  year : Nat
  month : Nat
  day : Nat
deriving DecidableEq, Repr

/-- A time of day (chrono `NaiveTime`): hour, minute, second and the
nanosecond fraction. -/
structure Time where
  hour : Nat
  minute : Nat
  second : Nat
  nano : Nat
deriving DecidableEq, Repr

/-- A date combined with a time (chrono `NaiveDateTime`). -/
structure NaiveDT where
  date : Date
  time : Time
deriving DecidableEq, Repr

/-- A timezone-aware datetime (chrono `DateTime<FixedOffset>`), modelled as
the local calendar representation together with the fixed UTC offset in
seconds (which determine the instant). -/
structure DateTime where
  naiveLocal : NaiveDT
  offset : Int
deriving DecidableEq, Repr

/-- Gregorian leap-year rule. -/
def isLeap (y : Nat) : Bool :=
  y % 4 = 0 && (y % 100 ≠ 0 || y % 400 = 0)

/-- Days in a month of the proleptic Gregorian calendar. -/
def daysInMonth (y m : Nat) : Nat :=
  if m = 2 then (if isLeap y then 29 else 28)
  else if m = 4 || m = 6 || m = 9 || m = 11 then 30
  else 31

/-- Value of two ASCII digit characters, `none` otherwise. -/
def twoDigits (a b : Char) : Option Nat :=
  if a.isDigit && b.isDigit then some ((a.toNat - 48) * 10 + (b.toNat - 48))
  else none

/-- Modelled from the spec: chrono `NaiveDate::parse_from_str` with format
`%Y/%m/%d` on grammar-shaped date text — four year digits, two month
digits, two day digits separated by slashes (§4.1: zero-padded month/day),
rejecting calendar-invalid combinations. -/
def parseDate : List Char → Option Date
  | [y1, y2, y3, y4, c1, m1, m2, c2, d1, d2] =>
    if y1.isDigit && y2.isDigit && y3.isDigit && y4.isDigit
        && c1 = '/' && c2 = '/' then
      match twoDigits m1 m2, twoDigits d1 d2 with
      | some m, some d =>
        let y := ((y1.toNat - 48) * 10 + (y2.toNat - 48)) * 100
          + (y3.toNat - 48) * 10 + (y4.toNat - 48)
        if 1 ≤ m ∧ m ≤ 12 ∧ 1 ≤ d ∧ d ≤ daysInMonth y m then
          some ⟨y, m, d⟩
        else none
      | _, _ => none
    else none
  | _ => none

/-- The date decoder (`src/parse.rs:55`): parse the matched text, a failure
becomes an error naming the text. -/
def date (tree : ParseTree) : Res Date :=
  match parseDate tree.text.data with
  | some d => Res.ok d
  | none =>
    Res.err ⟨"Error in parsing '" ++ tree.text ++ "' into a date!", tree.span⟩

/-- Modelled from the spec: chrono `NaiveTime::parse_from_str` with format
`%H:%M:%S` or `%H:%M:%S%.3f` on grammar-shaped time text — two digits per
field, an optional dot plus exactly three millisecond digits, with the
time-of-day range checks chrono applies (hour below 24, minute and second
below 60; chrono's leap-second extension is outside the grammar's shape). -/
def parseTime (withMs : Bool) : List Char → Option Time
  | [h1, h2, c1, m1, m2, c2, s1, s2] =>
    if withMs then none
    else if c1 = ':' && c2 = ':' then
      match twoDigits h1 h2, twoDigits m1 m2, twoDigits s1 s2 with
      | some h, some m, some s =>
        if h < 24 ∧ m < 60 ∧ s < 60 then some ⟨h, m, s, 0⟩ else none
      | _, _, _ => none
    else none
  | [h1, h2, c1, m1, m2, c2, s1, s2, dot, f1, f2, f3] =>
    if ¬ withMs then none
    else if c1 = ':' && c2 = ':' && dot = '.'
        && f1.isDigit && f2.isDigit && f3.isDigit then
      match twoDigits h1 h2, twoDigits m1 m2, twoDigits s1 s2 with
      | some h, some m, some s =>
        if h < 24 ∧ m < 60 ∧ s < 60 then
          some ⟨h, m, s, (((f1.toNat - 48) * 10 + (f2.toNat - 48)) * 10
            + (f3.toNat - 48)) * 1000000⟩
        else none
      | _, _, _ => none
    else none
  | _ => none

/-- The time decoder (`src/parse.rs:63`): the format carries the
millisecond fraction exactly when the node has an inner sub-node; a parse
failure becomes an error naming the text. -/
def time (tree : ParseTree) : Res Time :=
  match parseTime (¬ tree.children.isEmpty) tree.text.data with
  | some t => Res.ok t
  | none =>
    Res.err ⟨"Error in parsing '" ++ tree.text ++ "' into a time!", tree.span⟩

/-- The datetime decoder (`src/parse.rs:77`), parameterised by the ambient
local-timezone resolver (modelled from the spec, §5/§9: chrono
`Local::from_local_datetime`, `none` when the local instant is nonexistent
or ambiguous, in which case the source's `unwrap` panics).  The date child
is decoded before the time child is unwrapped; a third child (the UTC
marker) selects the fixed zero offset without consulting the resolver. -/
def datetime (resolver : NaiveDT → Option Int) (tree : ParseTree) :
    Res DateTime :=
  match tree.children with
  | [] => Res.panic
  | c1 :: rest =>
    Res.bind (date c1) fun d =>
      match rest with
      | [] => Res.panic
      | c2 :: rest2 =>
        Res.bind (time c2) fun t =>
          let naive : NaiveDT := ⟨d, t⟩
          match rest2 with
          | _ :: _ => Res.ok ⟨naive, 0⟩
          | [] =>
            match resolver naive with
            | some off => Res.ok ⟨naive, off⟩
            | none => Res.panic

/-! ### Durations (`parse.rs::duration`) -/

/-- Rust `std::time::Duration`: whole seconds plus a nanosecond part kept
below one billion by construction. -/
structure Duration where
  secs : Nat
  nanos : Nat
deriving DecidableEq, Repr

/-- Rust `Duration::new`: carries excess nanoseconds into the seconds. -/
def Duration.new (s n : Nat) : Duration :=
  ⟨s + n / 1000000000, n % 1000000000⟩

/-- Rust `Duration` addition (`dur += ...`). -/
def Duration.add (a b : Duration) : Duration :=
  ⟨a.secs + b.secs + (a.nanos + b.nanos) / 1000000000,
    (a.nanos + b.nanos) % 1000000000⟩

/-- The fold of `duration` over the node's children
(`try_for_each` at `src/parse.rs:95`): a `days` child parsed as `u32` adds
`val * 24 * 60 * 60` seconds, a `time` child adds its fields reinterpreted
as elapsed magnitudes, any other child is the `unreachable!` arm. -/
def durFold : List ParseTree → Duration → Res Duration
  | [], dur => Res.ok dur
  | p :: rest, dur =>
    match p.rule with
    | Rule.days =>
      match parseU32 p.text with
      | some val =>
        durFold rest (dur.add (Duration.new (val * 24 * 60 * 60) 0))
      | none =>
        Res.err ⟨"Could not parse days from '" ++ p.text ++ "'!", p.span⟩
    | Rule.time =>
      Res.bind (time p) fun t =>
        durFold rest
          (dur.add (Duration.new (t.second + 60 * (t.minute + 60 * t.hour))
            t.nano))
    | _ => Res.panic

/-- The duration decoder (`src/parse.rs:92`): fold the children into a
duration starting from zero. -/
def duration (tree : ParseTree) : Res Duration :=
  durFold tree.children ⟨0, 0⟩

/-- Duration node with an optional day-count child of text `dt` and a time
child of text `tt` (with a fractional sub-node when `withMs`). -/
def mkDurationNode (dt : Option String) (tt : String) (withMs : Bool)
    (sp : Span) : ParseTree :=
  ParseTree.node Rule.duration (tt) sp
    ((match dt with
      | none => []
      | some d => [ParseTree.node Rule.days d sp []]) ++
      [ParseTree.node Rule.time tt sp
        (if withMs then [ParseTree.node Rule.msecs "" sp []] else [])])

/-! ### Base64 (`parse.rs::base64` and the standard codec) -/

/-- The standard base64 alphabet, modelled from the spec (§4.1: the codec
is the external `base64` crate, decoding "via the standard base64
alphabet"). -/
def b64alphabet : List Char :=
  ['A', 'B', 'C', 'D', 'E', 'F', 'G', 'H', 'I', 'J', 'K', 'L', 'M',
   'N', 'O', 'P', 'Q', 'R', 'S', 'T', 'U', 'V', 'W', 'X', 'Y', 'Z',
   'a', 'b', 'c', 'd', 'e', 'f', 'g', 'h', 'i', 'j', 'k', 'l', 'm',
   'n', 'o', 'p', 'q', 'r', 's', 't', 'u', 'v', 'w', 'x', 'y', 'z',
   '0', '1', '2', '3', '4', '5', '6', '7', '8', '9', '+', '/']

/-- The alphabet character of a sextet. -/
def b64char (n : Nat) : Char := b64alphabet.getD n 'A'

/-- The sextet of an alphabet character, `none` for non-alphabet input. -/
def b64val (c : Char) : Option Nat :=
  b64alphabet.findIdx? (fun x => x = c)

/-- Modelled from the spec: standard padded base64 encoding of a byte
sequence, three bytes to four characters, the final group padded with
`=`. -/
def b64encode : List Nat → List Char
  | [] => []
  | [a] => [b64char (a / 4), b64char (a % 4 * 16), '=', '=']
  | [a, b] =>
    [b64char (a / 4), b64char (a % 4 * 16 + b / 16), b64char (b % 16 * 4), '=']
  | a :: b :: c :: rest =>
    b64char (a / 4) :: b64char (a % 4 * 16 + b / 16)
      :: b64char (b % 16 * 4 + c / 64) :: b64char (c % 64) :: b64encode rest

/-- Modelled from the spec: standard padded base64 decoding
(`base64::decode`), four characters to three bytes, `=` padding allowed
only at the very end, any other shape or character a decode failure. -/
def b64decode : List Char → Option (List Nat)
  | [] => some []
  | c1 :: c2 :: c3 :: c4 :: rest =>
    match b64val c1, b64val c2 with
    | some v1, some v2 =>
      if c3 = '=' then
        if c4 = '=' ∧ rest = [] then some [v1 * 4 + v2 / 16] else none
      else
        match b64val c3 with
        | some v3 =>
          if c4 = '=' then
            if rest = [] then some [v1 * 4 + v2 / 16, v2 % 16 * 16 + v3 / 4]
            else none
          else
            match b64val c4 with
            | some v4 =>
              (b64decode rest).map
                (fun bs => (v1 * 4 + v2 / 16) :: (v2 % 16 * 16 + v3 / 4)
                  :: (v3 % 4 * 64 + v4) :: bs)
            | none => none
        | none => none
    | _, _ => none
  | _ => none

/-- The base64 decoder (`src/parse.rs:154`): concatenate the characters of
every child node (the grammar hands back the base64 character runs with
the interleaving horizontal whitespace already excluded) and decode; a
codec failure becomes an error wrapping the codec diagnostic. -/
def base64 (tree : ParseTree) : Res (List Nat) :=
  match b64decode (tree.children.flatMap (fun ch => ch.text.data)) with
  | some bytes => Res.ok bytes
  | none =>
    Res.err ⟨"Error in parsing Base64: invalid payload", tree.span⟩

/-! ### Remaining literal decoders and the value dispatcher -/

/-- The boolean decoder (`src/parse.rs:146`): the single child's production
selects the value; anything else is the `unreachable!` arm. -/
def boolean (tree : ParseTree) : Res Bool :=
  match tree.children.head? with
  | none => Res.panic
  | some c =>
    match c.rule with
    | Rule.bool_true => Res.ok true
    | Rule.bool_false => Res.ok false
    | _ => Res.panic

/-- A decoded decimal (`src/parse.rs:130`), represented by its numeral text
and whether the `f` suffix selected the direct 64-bit parse.  IEEE 754
float semantics of the external parse are not modelled; no claim examines
the numeric value of a decimal. -/
structure DecimalRep where
  text : String
  wide : Bool
deriving DecidableEq, Repr

/-- The decimal decoder (`src/parse.rs:130`): no suffix parses at 32 bits
and widens, suffix `f` parses directly at 64 bits, any other suffix is the
`unreachable!` arm.  Grammar-shaped float numerals always parse in Rust,
so the error branch is not taken on grammar input. -/
def decimal (tree : ParseTree) : Res DecimalRep :=
  match tree.children with
  | [] => Res.panic
  | num :: rest =>
    match rest.head? with
    | none => Res.ok ⟨num.text, false⟩
    | some suf =>
      if suf.text = "f" then Res.ok ⟨num.text, true⟩ else Res.panic

/-- The identifier decoder (`src/parse.rs:181`): a passthrough copy. -/
def ident (tree : ParseTree) : Res String :=
  Res.ok tree.text

/-- The closed value variant set (`src/types.rs::Value`). -/
inductive Value where
  | String : String → Value
  | Base64 : List Nat → Value
  | Date : Date → Value
  | DateTime : DateTime → Value
  | Duration : Duration → Value
  | Number : Int → Value
  | Decimal : DecimalRep → Value
  | Boolean : Bool → Value
  | Null : Value
deriving DecidableEq, Repr

/-- The value dispatcher (`src/parse.rs:165`): unwrap the single child and
dispatch on its production; an unrecognised production is the
`unreachable!` arm.  The resolver parameter threads the ambient local
timezone down to the datetime decoder. -/
def value (resolver : NaiveDT → Option Int) (tree : ParseTree) : Res Value :=
  match tree.children.head? with
  | none => Res.panic
  | some c =>
    match c.rule with
    | Rule.string => Res.bind (string c) (fun v => Res.ok (Value.String v))
    | Rule.base64 => Res.bind (base64 c) (fun v => Res.ok (Value.Base64 v))
    | Rule.date => Res.bind (date c) (fun v => Res.ok (Value.Date v))
    | Rule.datetime =>
      Res.bind (datetime resolver c) (fun v => Res.ok (Value.DateTime v))
    | Rule.duration =>
      Res.bind (duration c) (fun v => Res.ok (Value.Duration v))
    | Rule.number => Res.bind (number c) (fun v => Res.ok (Value.Number v))
    | Rule.decimal =>
      Res.bind (decimal c) (fun v => Res.ok (Value.Decimal v))
    | Rule.boolean =>
      Res.bind (boolean c) (fun v => Res.ok (Value.Boolean v))
    | Rule.null => Res.ok Value.Null
    | _ => Res.panic

/-- An attribute (`src/types.rs::Attribute`): a name/value pair. -/
structure Attribute where
  name : String
  value : Value
deriving DecidableEq, Repr

/-- The attribute decoder (`src/parse.rs:185`, named `attribute` in the
source, a keyword here): unwrap the identifier and value children, decode
the identifier, then the value, and pair them. -/
def attributeD (resolver : NaiveDT → Option Int) (tree : ParseTree) :
    Res Attribute :=
  match tree.children with
  | name :: val :: _ =>
    Res.bind (ident name) fun n =>
      Res.bind (value resolver val) fun v => Res.ok ⟨n, v⟩
  | _ => Res.panic

/-- The namespace decoder (`src/parse.rs:192`): unwrap the single inner
identifier and decode it. -/
def nspace (tree : ParseTree) : Res String :=
  match tree.children.head? with
  | none => Res.panic
  | some c => ident c

/-! ### Tags (`src/types.rs::Tag`, `parse.rs::tag/tags/tagtree`) -/

/-- A tag (`src/types.rs::Tag`): optional namespace, name, ordered values,
ordered attributes and ordered child tags.  `nspace` stands for the
source's `namespace` field (a keyword here). -/
inductive Tag where
  | mk (nspace : Option String) (name : String) (values : List Value)
      (attrs : List Attribute) (tags : List Tag)

/-- The namespace of a tag. -/
def Tag.nspace : Tag → Option String
  | .mk ns _ _ _ _ => ns

/-- The name of a tag. -/
def Tag.name : Tag → String
  | .mk _ n _ _ _ => n

/-- The values of a tag. -/
def Tag.values : Tag → List Value
  | .mk _ _ vs _ _ => vs

/-- The attributes of a tag. -/
def Tag.attrs : Tag → List Attribute
  | .mk _ _ _ ats _ => ats

/-- The child tags of a tag. -/
def Tag.tags : Tag → List Tag
  | .mk _ _ _ _ ts => ts

/-- `Tag::new` (`src/types.rs:237`): everything empty apart from the name. -/
def Tag.new (name : String) : Tag :=
  Tag.mk none name [] [] []

/-- Set the namespace (`tag.namespace = Some(..)`). -/
def Tag.setNspace : Tag → String → Tag
  | .mk _ n vs ats ts, ns => .mk (some ns) n vs ats ts

/-- Set the name (`tag.name = ..`). -/
def Tag.setName : Tag → String → Tag
  | .mk ns _ vs ats ts, n => .mk ns n vs ats ts

/-- Append one value (`tag.values.push(..)`). -/
def Tag.pushValue : Tag → Value → Tag
  | .mk ns n vs ats ts, v => .mk ns n (vs ++ [v]) ats ts

/-- Append one attribute (`tag.attrs.push(..)`). -/
def Tag.pushAttr : Tag → Attribute → Tag
  | .mk ns n vs ats ts, a => .mk ns n vs (ats ++ [a]) ts

/-- Append a whole child list (`tag.tags.append(..)`, also the builder
`Tag::tags` of `src/types.rs:281` which extends the child list). -/
def Tag.appendTags : Tag → List Tag → Tag
  | .mk ns n vs ats ts, more => .mk ns n vs ats (ts ++ more)

mutual

/-- The fold of the tag assembler (`src/parse.rs:197`): starting from
`Tag::new("")`, each child updates the accumulator according to its
production — namespace, name, value, attribute, or a recursively decoded
nested sibling list appended wholesale — and any other production is the
`unreachable!` arm. -/
def tagFold (resolver : NaiveDT → Option Int) :
    List ParseTree → Tag → Res Tag
  | [], acc => Res.ok acc
  | ParseTree.node r s sp cs :: rest, acc =>
    let c := ParseTree.node r s sp cs
    match r with
    | Rule.nspace =>
      Res.bind (nspace c) fun ns => tagFold resolver rest (acc.setNspace ns)
    | Rule.ident =>
      Res.bind (ident c) fun n => tagFold resolver rest (acc.setName n)
    | Rule.value =>
      Res.bind (value resolver c) fun v =>
        tagFold resolver rest (acc.pushValue v)
    | Rule.attribute =>
      Res.bind (attributeD resolver c) fun a =>
        tagFold resolver rest (acc.pushAttr a)
    | Rule.tags =>
      Res.bind (tagsFold resolver cs) fun ts =>
        tagFold resolver rest (acc.appendTags ts)
    | _ => Res.panic
termination_by l _ => sizeOf l
decreasing_by
  all_goals simp_wf
  all_goals omega

/-- The sibling-list decode (`src/parse.rs:210`): decode each child tag in
order and collect, short-circuiting at the first failure. -/
def tagsFold (resolver : NaiveDT → Option Int) :
    List ParseTree → Res (List Tag)
  | [] => Res.ok []
  | ParseTree.node _r _s _sp cs :: rest =>
    Res.bind (tagFold resolver cs (Tag.new "")) fun t =>
      Res.bind (tagsFold resolver rest) fun ts => Res.ok (t :: ts)
termination_by l => sizeOf l
decreasing_by
  all_goals simp_wf
  all_goals omega

end

/-- The tag decoder (`src/parse.rs:196`): fold the node's children starting
from an anonymous empty tag. -/
def tag (resolver : NaiveDT → Option Int) (tree : ParseTree) : Res Tag :=
  tagFold resolver tree.children (Tag.new "")

/-- The sibling-list decoder (`src/parse.rs:210`). -/
def tags (resolver : NaiveDT → Option Int) (tree : ParseTree) :
    Res (List Tag) :=
  tagsFold resolver tree.children

/-- The top-level decoder (`src/parse.rs:214`): unwrap the single inner
sibling-list node and decode it. -/
def tagtree (resolver : NaiveDT → Option Int) (tree : ParseTree) :
    Res (List Tag) :=
  match tree.children.head? with
  | none => Res.panic
  | some c => tags resolver c

/-- The public entry point (`src/lib.rs::parse_text`), parameterised by the
grammar engine `g` (modelled from the spec, §6: external collaborator
returning a syntax tree or a syntax error) and the ambient timezone
resolver: run the grammar at the `tagtree` production, decode the
top-level sibling list, and wrap it as the child list of a fresh anonymous
root tag. -/
def parse_text (resolver : NaiveDT → Option Int)
    (g : String → Except ParseError ParseTree) (data : String) : Res Tag :=
  match g data with
  | Except.error e => Res.err e
  | Except.ok tree =>
    Res.bind (tagtree resolver tree) fun l =>
      Res.ok ((Tag.new "").appendTags l)

/-! ### Helper definitions used by the theorem statements -/

/-- Whether `pat` occurs at the head of `l`. -/
def beginsWith : List Char → List Char → Bool
  | _, [] => true
  | [], _ :: _ => false
  | a :: as, b :: bs => a = b && beginsWith as bs

/-- Whether `pat` occurs somewhere inside `l` (substring test used to talk
about the contents of diagnostic messages). -/
def hasSub : List Char → List Char → Bool
  | [], pat => pat.isEmpty
  | a :: as, pat => beginsWith (a :: as) pat || hasSub as pat

/-- Spec-side escape table, written from the claim's words: `n` and a
literal embedded newline to newline, `r` to carriage return, `t` to tab,
backslash to backslash, `0` to NUL, double-quote and apostrophe to
themselves, nothing else translated. -/
def specEscTable (c : Char) : Option Char :=
  if c = 'n' ∨ c = nlC then some nlC
  else if c = 'r' then some crC
  else if c = 't' then some tabC
  else if c = bslashC then some bslashC
  else if c = '0' then some nulC
  else if c = dquoteC then some dquoteC
  else if c = squoteC then some squoteC
  else none

/-- Spec-side scan, written from the claim's words: decode the interior
left to right with a pending-escape flag — a backslash sets the flag and
emits nothing, under the flag the next character goes through the table
and the flag clears, every other character is emitted verbatim. -/
def specScan : Bool → List Char → Option (List Char)
  | _, [] => some []
  | false, c :: rest =>
    if c = bslashC then specScan true rest
    else (specScan false rest).map (fun out => c :: out)
  | true, c :: rest =>
    (specEscTable c).bind fun e =>
      (specScan false rest).map (fun out => e :: out)

/-- Base64 syntax node whose children are the runs of base64 characters
`gs` (the grammar delivers the payload with the interleaving horizontal
whitespace already stripped out of the children, so an arbitrary
whitespace injection between character groups shows up here as an
arbitrary grouping `gs`). -/
def mkB64Node (gs : List (List Char)) (sp : Span) : ParseTree :=
  ParseTree.node Rule.base64 "" sp
    (gs.map fun g => ParseTree.node Rule.b64chars ⟨g⟩ sp [])

/-- The child productions the tag fold recognises
(`src/parse.rs:198`). -/
def recognizedRule : Rule → Bool
  | Rule.nspace => true
  | Rule.ident => true
  | Rule.value => true
  | Rule.attribute => true
  | Rule.tags => true
  | _ => false

/-- The fold step on child `c` completes without a panic of its own: its
sub-decoder returns (a value or an error) rather than panicking, and its
production is one the fold recognises (`False` otherwise, since an
unrecognised production is the fold's own abort). -/
def childStepSafe (resolver : NaiveDT → Option Int) (c : ParseTree) : Prop :=
  match c.rule with
  | Rule.nspace => nspace c ≠ Res.panic
  | Rule.ident => True
  | Rule.value => value resolver c ≠ Res.panic
  | Rule.attribute => attributeD resolver c ≠ Res.panic
  | Rule.tags => tagsFold resolver c.children ≠ Res.panic
  | _ => False

/-! ## Theorems for the claims -/

/-- Evaluation of `numberWrap` over the outcome of a range check. -/
theorem numberWrap_if (t : String) (sp : Span) (P : Prop) [Decidable P]
    (n : Int) :
    numberWrap t sp (if P then some n else none) =
      if P then Res.ok n else Res.err ⟨numberErrMsg t, sp⟩ := by
  by_cases hP : P <;> simp [hP, numberWrap]

/-- Shared evaluation lemma for the number decoder on a number node whose
numeral text parses to the integer `n`: each suffix selects its width's
range check, in-range values are returned widened, out-of-range ones
become the fixed overflow error. -/
theorem number_mk_eval (t : String) (n : Int) (sp : Span)
    (h : parseIntText t = some n) :
    (number (mkNumberNode t none sp) =
      if -(2 ^ 31 : Int) ≤ n ∧ n ≤ 2 ^ 31 - 1 then Res.ok n
      else Res.err ⟨numberErrMsg t, sp⟩) ∧
    (number (mkNumberNode t (some "L") sp) =
      if -(2 ^ 63 : Int) ≤ n ∧ n ≤ 2 ^ 63 - 1 then Res.ok n
      else Res.err ⟨numberErrMsg t, sp⟩) ∧
    (number (mkNumberNode t (some "BD") sp) =
      if -(2 ^ 127 : Int) ≤ n ∧ n ≤ 2 ^ 127 - 1 then Res.ok n
      else Res.err ⟨numberErrMsg t, sp⟩) := by
  refine ⟨?_, ?_, ?_⟩ <;>
    simp only [number, mkNumberNode, ParseTree.children, ParseTree.text,
      ParseTree.span, parseSigned, h, List.head?] <;>
    exact numberWrap_if t sp _ n

/-- C1: the number decoder selects the integer width from the suffix — no
suffix demands the digit text fit a 32-bit signed integer, `L` a 64-bit
one, `BD` the full 128-bit container; the in-range value is returned
widened into the container, and digit text outside the selected width
yields a decode error even when the 128-bit container could hold it. -/
theorem C1_number_width_selection (t : String) (n : Int) (sp : Span)
    (h : parseIntText t = some n) :
    (number (mkNumberNode t none sp) =
      if -(2 ^ 31 : Int) ≤ n ∧ n ≤ 2 ^ 31 - 1 then Res.ok n
      else Res.err ⟨numberErrMsg t, sp⟩) ∧
    (number (mkNumberNode t (some "L") sp) =
      if -(2 ^ 63 : Int) ≤ n ∧ n ≤ 2 ^ 63 - 1 then Res.ok n
      else Res.err ⟨numberErrMsg t, sp⟩) ∧
    (number (mkNumberNode t (some "BD") sp) =
      if -(2 ^ 127 : Int) ≤ n ∧ n ≤ 2 ^ 127 - 1 then Res.ok n
      else Res.err ⟨numberErrMsg t, sp⟩) :=
  number_mk_eval t n sp h

/-- Witness for C1: `2147483648` fits the 128-bit container yet overflows
the suffix-free 32-bit width into a decode error, while the same digits
with suffix `L` decode to the widened value. -/
theorem C1_number_width_selection_witness :
    parseIntText "2147483648" = some 2147483648 ∧
    number (mkNumberNode "2147483648" none ⟨0, 10⟩) =
      Res.err ⟨numberErrMsg "2147483648", ⟨0, 10⟩⟩ ∧
    number (mkNumberNode "2147483648" (some "L") ⟨0, 10⟩) =
      Res.ok 2147483648 := by
  have h : parseIntText "2147483648" = some 2147483648 := by decide
  have hc := C1_number_width_selection "2147483648" 2147483648 ⟨0, 10⟩ h
  refine ⟨h, ?_, ?_⟩
  · rw [hc.1]; norm_num
  · rw [hc.2.1]; norm_num

/-- C7 counterexample: at the overflowing literal `2147483648` with no
suffix, the decoder's message is exactly
`Error in parsing '2147483648' as a number (too large?)` — it names the
literal text but contains no mention of the selected width (no `32`, no
`bit`, no `width`), refuting the claim that the message names both. -/
theorem C7_counterexample :
    number (mkNumberNode "2147483648" none ⟨0, 10⟩) =
      Res.err ⟨"Error in parsing '2147483648' as a number (too large?)",
        ⟨0, 10⟩⟩ ∧
    hasSub "Error in parsing '2147483648' as a number (too large?)".data
      "2147483648".data = true ∧
    hasSub "Error in parsing '2147483648' as a number (too large?)".data
      "32".data = false ∧
    hasSub "Error in parsing '2147483648' as a number (too large?)".data
      "bit".data = false ∧
    hasSub "Error in parsing '2147483648' as a number (too large?)".data
      "width".data = false := by
  refine ⟨?_, by decide, by decide, by decide, by decide⟩
  have h : parseIntText "2147483648" = some 2147483648 := by decide
  have hc := number_mk_eval "2147483648" 2147483648 ⟨0, 10⟩ h
  rw [hc.1, if_neg (by norm_num)]; rfl

/-- C7 amended: for digit text outside the width its suffix selects, the
number decoder returns a decode error whose message names the literal text
(it reads `Error in parsing '<text>' as a number (too large?)`); the
selected width is not part of the message. -/
theorem C7_overflow_error_message (t : String) (n : Int) (sp : Span)
    (h : parseIntText t = some n) :
    (¬ (-(2 ^ 31 : Int) ≤ n ∧ n ≤ 2 ^ 31 - 1) →
      number (mkNumberNode t none sp) =
        Res.err ⟨"Error in parsing '" ++ t ++ "' as a number (too large?)",
          sp⟩) ∧
    (¬ (-(2 ^ 63 : Int) ≤ n ∧ n ≤ 2 ^ 63 - 1) →
      number (mkNumberNode t (some "L") sp) =
        Res.err ⟨"Error in parsing '" ++ t ++ "' as a number (too large?)",
          sp⟩) ∧
    (¬ (-(2 ^ 127 : Int) ≤ n ∧ n ≤ 2 ^ 127 - 1) →
      number (mkNumberNode t (some "BD") sp) =
        Res.err ⟨"Error in parsing '" ++ t ++ "' as a number (too large?)",
          sp⟩) := by
  have hc := number_mk_eval t n sp h
  refine ⟨fun hout => ?_, fun hout => ?_, fun hout => ?_⟩
  · rw [hc.1, if_neg hout]; rfl
  · rw [hc.2.1, if_neg hout]; rfl
  · rw [hc.2.2, if_neg hout]; rfl

/-- Witness for the amended C7 at the literal `2147483648` with no
suffix. -/
theorem C7_overflow_error_message_witness :
    number (mkNumberNode "2147483648" none ⟨0, 10⟩) =
      Res.err ⟨"Error in parsing '" ++ "2147483648"
        ++ "' as a number (too large?)", ⟨0, 10⟩⟩ := by
  have h : parseIntText "2147483648" = some 2147483648 := by decide
  exact (C7_overflow_error_message "2147483648" 2147483648 ⟨0, 10⟩ h).1
    (by norm_num)

/-- The code's escape table agrees pointwise with the spec-side table. -/
theorem escChar_eq_specEscTable (c : Char) : escChar c = specEscTable c := by
  unfold escChar specEscTable
  by_cases h1 : c = nlC <;> by_cases h2 : c = 'n' <;> simp [h1, h2]

/-- The code's accumulator fold computes the spec-side scan, shifted by the
accumulated prefix. -/
theorem strFold_eq_specScan (cs : List Char) : ∀ (esc : Bool) (acc : List Char),
    strFold cs esc acc = (specScan esc cs).map (fun out => acc ++ out) := by
  induction cs with
  | nil => intro esc acc; cases esc <;> simp [strFold, specScan]
  | cons c rest ih =>
    intro esc acc
    cases esc with
    | false =>
      by_cases hb : c = bslashC
      · simp [strFold, specScan, hb, ih]
      · simp only [strFold, specScan, hb, if_false, ih]
        cases specScan false rest <;> simp
    | true =>
      simp only [strFold, specScan, escChar_eq_specEscTable]
      cases specEscTable c with
      | none => simp
      | some e =>
        simp only [Option.bind_some, ih]
        cases specScan false rest <;> simp

/-- C2: on a non-raw (double-quoted) string node the decoder strips the
delimiters and scans the interior left to right with a pending-escape
flag, translating escaped characters through the fixed table and emitting
everything else verbatim (the panic on a character outside the table is
the scan's `none` case); on a raw (backtick) node it returns the interior
unchanged. -/
theorem C2_string_escape_decoding (interior : List Char) :
    string (mkStringNode btickC interior) = Res.ok (String.mk interior) ∧
    string (mkStringNode dquoteC interior) =
      (match specScan false interior with
       | some out => Res.ok (String.mk out)
       | none => Res.panic) := by
  have hl : interior.length + 2 - 1 - (0 + 1) = interior.length := by omega
  have hex : ∀ d : Char, List.take interior.length
      (List.drop 1 (d :: (interior ++ [d]))) = interior := by
    intro d
    simp [List.take_left]
  have hne : ¬ (dquoteC = btickC) := by decide
  constructor
  · simp [string, mkStringNode, hl, hex]
  · simp [string, mkStringNode, hl, hex, hne, strFold_eq_specScan]

/-- Bounds on the code point of an ASCII digit. -/
theorem digit_toNat_bounds {c : Char} (h : c.isDigit = true) :
    48 ≤ c.toNat ∧ c.toNat ≤ 57 := by
  simp [Char.isDigit, UInt32.le_def, Char.toNat] at h ⊢
  exact h

/-- A parsed time's sub-second component stays below one second. -/
theorem parseTime_nano_lt {b : Bool} {cs : List Char} {tm : Time}
    (h : parseTime b cs = some tm) : tm.nano < 1000000000 := by
  unfold parseTime at h
  split at h
  · split_ifs at h with h1 h2
    split at h
    · split_ifs at h with h3
      cases h
      simp
    · exact Option.noConfusion h
  · split_ifs at h with h1 h2
    simp only [Bool.and_eq_true, decide_eq_true_eq] at h2
    obtain ⟨⟨⟨⟨⟨hc1, hc2⟩, hdot⟩, hf1⟩, hf2⟩, hf3⟩ := h2
    have b1 := digit_toNat_bounds hf1
    have b2 := digit_toNat_bounds hf2
    have b3 := digit_toNat_bounds hf3
    split at h
    · split_ifs at h with h3
      cases h
      simp only [Time.nano]
      omega
    · exact Option.noConfusion h
  · exact Option.noConfusion h

/-- C3: a duration node decodes to days times 86400 plus hours times 3600
plus minutes times 60 plus seconds elapsed seconds, together with the
sub-second component; the optional day-count prefix contributes exactly
the days term.  The result lives in the ℕ-valued model of Rust's unsigned
`std::time::Duration`, hence is non-negative by construction. -/
theorem C3_duration_formula (dt tt : String) (days : Nat) (tm : Time)
    (withMs : Bool) (sp : Span)
    (hd : parseU32 dt = some days)
    (ht : parseTime withMs tt.data = some tm) :
    duration (mkDurationNode (some dt) tt withMs sp) =
      Res.ok ⟨days * 86400 + (tm.hour * 3600 + tm.minute * 60 + tm.second),
        tm.nano⟩ ∧
    duration (mkDurationNode none tt withMs sp) =
      Res.ok ⟨tm.hour * 3600 + tm.minute * 60 + tm.second, tm.nano⟩ := by
  have hn := parseTime_nano_lt ht
  have hdiv : tm.nano / 1000000000 = 0 := Nat.div_eq_of_lt hn
  have hmod : tm.nano % 1000000000 = tm.nano := Nat.mod_eq_of_lt hn
  constructor <;>
    cases withMs <;>
      simp [duration, mkDurationNode, durFold, hd, time, ParseTree.children,
        ParseTree.text, ParseTree.rule, ParseTree.span, ht, Duration.add,
        Duration.new, Res.bind, Res.ok, hdiv, hmod, Duration.mk.injEq] <;>
      omega

/-- Witness for C3 at the claim's two examples: `0d:01:02:03.004` decodes
to 1 hour 2 minutes 3 seconds 4 milliseconds, and `2d:00:00:00` to exactly
172800 seconds. -/
theorem C3_duration_formula_witness :
    duration (mkDurationNode (some "0") "01:02:03.004" true ⟨0, 15⟩) =
      Res.ok ⟨3723, 4000000⟩ ∧
    duration (mkDurationNode (some "2") "00:00:00" false ⟨0, 11⟩) =
      Res.ok ⟨172800, 0⟩ := by
  constructor
  · have h := (C3_duration_formula "0" "01:02:03.004" 0 ⟨1, 2, 3, 4000000⟩
      true ⟨0, 15⟩ (by decide) (by decide)).1
    simpa using h
  · have h := (C3_duration_formula "2" "00:00:00" 2 ⟨0, 0, 0, 0⟩
      false ⟨0, 11⟩ (by decide) (by decide)).1
    simpa using h

/-- C4: a datetime node carrying the trailing UTC marker child decodes to
the composed date and time with the fixed zero UTC offset, for every
ambient timezone resolver — the resolver (the model of the local timezone
lookup) is never consulted. -/
theorem C4_datetime_utc_marker (resolver : NaiveDT → Option Int) (r : Rule)
    (txt : String) (sp : Span) (c1 c2 m : ParseTree) (ms : List ParseTree)
    (d : Date) (tm : Time)
    (hd : date c1 = Res.ok d) (ht : time c2 = Res.ok tm) :
    datetime resolver (ParseTree.node r txt sp (c1 :: c2 :: m :: ms)) =
      Res.ok ⟨⟨d, tm⟩, 0⟩ := by
  simp [datetime, ParseTree.children, hd, ht, Res.bind, Res.ok]

/-- Witness for C4: a concrete UTC-marked node decodes to offset zero even
under a resolver that answers a one-hour offset. -/
theorem C4_datetime_utc_marker_witness :
    datetime (fun _ => some 3600)
      (ParseTree.node Rule.datetime "2023/01/02 03:04:05-UTC" ⟨0, 23⟩
        [ParseTree.node Rule.date "2023/01/02" ⟨0, 10⟩ [],
         ParseTree.node Rule.time "03:04:05" ⟨11, 19⟩ [],
         ParseTree.node Rule.utc "-UTC" ⟨19, 23⟩ []]) =
      Res.ok ⟨⟨⟨2023, 1, 2⟩, ⟨3, 4, 5, 0⟩⟩, 0⟩ :=
  C4_datetime_utc_marker (fun _ => some 3600) Rule.datetime
    "2023/01/02 03:04:05-UTC" ⟨0, 23⟩
    (ParseTree.node Rule.date "2023/01/02" ⟨0, 10⟩ [])
    (ParseTree.node Rule.time "03:04:05" ⟨11, 19⟩ [])
    (ParseTree.node Rule.utc "-UTC" ⟨19, 23⟩ []) []
    ⟨2023, 1, 2⟩ ⟨3, 4, 5, 0⟩ (by rfl) (by rfl)

/-- C10: on a non-UTC-marked datetime node whose naive date and time the
ambient timezone resolver cannot resolve to a single local instant (a
daylight-saving gap or fold, the resolver's `none`), the decoder panics —
the source's `unwrap` at `src/parse.rs:87`, modelled as `Res.panic`, which
is neither a returned value nor a returned decode error. -/
theorem C10_datetime_local_unwrap_panic (resolver : NaiveDT → Option Int)
    (h : resolver ⟨⟨2023, 3, 12⟩, ⟨2, 30, 0, 0⟩⟩ = none) :
    datetime resolver
      (ParseTree.node Rule.datetime "2023/03/12 02:30:00" ⟨0, 19⟩
        [ParseTree.node Rule.date "2023/03/12" ⟨0, 10⟩ [],
         ParseTree.node Rule.time "02:30:00" ⟨11, 19⟩ []]) = Res.panic := by
  have hd : date (ParseTree.node Rule.date "2023/03/12" ⟨0, 10⟩ []) =
      Res.ok ⟨2023, 3, 12⟩ := by rfl
  have ht : time (ParseTree.node Rule.time "02:30:00" ⟨11, 19⟩ []) =
      Res.ok ⟨2, 30, 0, 0⟩ := by rfl
  simp [datetime, ParseTree.children, hd, ht, Res.bind, Res.ok, h, Res.panic]

/-- Witness for C10 under the resolver that reports every local instant as
unresolvable. -/
theorem C10_datetime_local_unwrap_panic_witness :
    datetime (fun _ => none)
      (ParseTree.node Rule.datetime "2023/03/12 02:30:00" ⟨0, 19⟩
        [ParseTree.node Rule.date "2023/03/12" ⟨0, 10⟩ [],
         ParseTree.node Rule.time "02:30:00" ⟨11, 19⟩ []]) = Res.panic :=
  C10_datetime_local_unwrap_panic (fun _ => none) (by rfl)

/-- Decoding an alphabet character produced from a sextet recovers the
sextet. -/
theorem b64val_b64char : ∀ n : Nat, n < 64 → b64val (b64char n) = some n := by
  decide

/-- No alphabet character is the padding character. -/
theorem b64char_ne_pad : ∀ n : Nat, n < 64 → ¬(b64char n = '=') := by
  decide

/-- Roundtrip of the modelled base64 codec on byte sequences. -/
theorem b64decode_b64encode : ∀ (bs : List Nat), (∀ x ∈ bs, x < 256) →
    b64decode (b64encode bs) = some bs
  | [], _ => rfl
  | [a], hb => by
    have ha : a < 256 := hb a (by simp)
    have h1 := b64val_b64char (a / 4) (by omega)
    have h2 := b64val_b64char (a % 4 * 16) (by omega)
    simp [b64encode, b64decode, h1, h2]
    omega
  | [a, b], hb => by
    have ha : a < 256 := hb a (by simp)
    have hbb : b < 256 := hb b (by simp)
    have h1 := b64val_b64char (a / 4) (by omega)
    have h2 := b64val_b64char (a % 4 * 16 + b / 16) (by omega)
    have h3 := b64val_b64char (b % 16 * 4) (by omega)
    have hne := b64char_ne_pad (b % 16 * 4) (by omega)
    simp [b64encode, b64decode, h1, h2, h3, hne]
    omega
  | a :: b :: c :: rest, hb => by
    have ha : a < 256 := hb a (by simp)
    have hbb : b < 256 := hb b (by simp)
    have hc : c < 256 := hb c (by simp)
    have IH := b64decode_b64encode rest (fun x hx => hb x (by simp [hx]))
    have h1 := b64val_b64char (a / 4) (by omega)
    have h2 := b64val_b64char (a % 4 * 16 + b / 16) (by omega)
    have h3 := b64val_b64char (b % 16 * 4 + c / 64) (by omega)
    have h4 := b64val_b64char (c % 64) (by omega)
    have hne3 := b64char_ne_pad (b % 16 * 4 + c / 64) (by omega)
    have hne4 := b64char_ne_pad (c % 64) (by omega)
    simp [b64encode, b64decode, h1, h2, h3, h4, hne3, hne4, IH]
    refine ⟨by omega, by omega, by omega⟩

/-- C8: for every byte sequence of length 0 to 255, base64-encoding it and
handing the decoder the character payload in arbitrary groups (the grammar
delivers the payload with any injected horizontal whitespace between
character groups already stripped, so the groups `gs` are arbitrary)
reproduces the original bytes exactly. -/
theorem C8_base64_roundtrip (bs : List Nat) (gs : List (List Char))
    (sp : Span) (hb : ∀ x ∈ bs, x < 256) (_hlen : bs.length ≤ 255)
    (hg : gs.flatten = b64encode bs) :
    base64 (mkB64Node gs sp) = Res.ok bs := by
  have hchars : (gs.map (fun g =>
      ParseTree.node Rule.b64chars ⟨g⟩ sp [])).flatMap
        (fun ch => ch.text.data) = gs.flatten := by
    rw [List.flatMap_map]
    exact List.flatMap_id gs
  unfold base64 mkB64Node
  simp only [ParseTree.children, hchars, hg, b64decode_b64encode bs hb]

/-- Witness for C8: the bytes of `Man` encode to `TWFu`; split into the
groups `TWF` and `u` (as after whitespace stripping) they decode back to
the original bytes. -/
theorem C8_base64_roundtrip_witness :
    base64 (mkB64Node [['T', 'W', 'F'], ['u']] ⟨0, 6⟩) =
      Res.ok [77, 97, 110] :=
  C8_base64_roundtrip [77, 97, 110] [['T', 'W', 'F'], ['u']] ⟨0, 6⟩
    (by decide) (by decide) (by decide)

/-- The tag decoder is the fold over the node's children from an anonymous
empty tag. -/
theorem tag_def (resolver : NaiveDT → Option Int) (x : ParseTree) :
    tag resolver x = tagFold resolver x.children (Tag.new "") := rfl

/-- One step of the sibling-list decode: decode the head tag, then the
remaining list. -/
theorem tagsFold_cons (resolver : NaiveDT → Option Int) (x : ParseTree)
    (rest : List ParseTree) :
    tagsFold resolver (x :: rest) =
      Res.bind (tag resolver x) (fun t =>
        Res.bind (tagsFold resolver rest) (fun ts => Res.ok (t :: ts))) := by
  cases x with
  | node r s sp cs => simp [tagsFold, tag, ParseTree.children]

/-- The sibling-list decode succeeds exactly when every child decodes, and
then returns the decoded tags pointwise in order. -/
theorem tagsFold_ok_iff (resolver : NaiveDT → Option Int) :
    ∀ (children : List ParseTree) (ts : List Tag),
      tagsFold resolver children = Res.ok ts ↔
        List.Forall₂ (fun c t => tag resolver c = Res.ok t) children ts := by
  intro children
  induction children with
  | nil =>
    intro ts
    constructor
    · intro h
      simp [tagsFold, Res.ok] at h
      subst h
      exact List.Forall₂.nil
    · intro h
      cases h
      simp [tagsFold]
  | cons x rest ih =>
    intro ts
    rw [tagsFold_cons]
    constructor
    · intro h
      cases hx : tag resolver x with
      | none => rw [hx] at h; simp [Res.bind, Res.ok] at h
      | some ex =>
        cases ex with
        | error e => rw [hx] at h; simp [Res.bind, Res.ok] at h
        | ok t =>
          rw [hx] at h
          simp only [Res.bind] at h
          cases hrest : tagsFold resolver rest with
          | none => rw [hrest] at h; simp [Res.bind, Res.ok] at h
          | some ex2 =>
            cases ex2 with
            | error e => rw [hrest] at h; simp [Res.bind, Res.ok] at h
            | ok ts2 =>
              rw [hrest] at h
              simp [Res.bind, Res.ok] at h
              subst h
              exact List.Forall₂.cons hx ((ih ts2).mp hrest)
    · intro h
      cases h with
      | cons hxt hrest =>
        rw [hxt]
        simp only [Res.bind, Res.ok]
        rw [(ih _).mpr hrest]
        rfl

/-- When every tag before position `k` decodes and the tag at `k` fails,
the sibling-list decode returns exactly that failure. -/
theorem tagsFold_first_err (resolver : NaiveDT → Option Int) :
    ∀ (pre : List ParseTree) (c : ParseTree) (post : List ParseTree)
      (e : ParseError),
      (∀ x ∈ pre, ∃ t, tag resolver x = Res.ok t) →
      tag resolver c = Res.err e →
      tagsFold resolver (pre ++ c :: post) = Res.err e := by
  intro pre
  induction pre with
  | nil =>
    intro c post e _ hc
    rw [List.nil_append, tagsFold_cons, hc]
    rfl
  | cons p pre2 ih =>
    intro c post e hpre hc
    obtain ⟨t, ht⟩ := hpre p (List.mem_cons_self p pre2)
    rw [List.cons_append, tagsFold_cons, ht]
    have hrec := ih c post e (fun x hx => hpre x (List.mem_cons_of_mem p hx)) hc
    simp only [Res.bind, hrec]
    rfl

/-- C5: the sibling-list decoder decodes the children independently in
source order — it returns `Ok` exactly when every child decodes, with the
decoded tags pointwise in order — and when the children before some
position decode while the child there fails, it returns exactly that first
failure (and hence no partial sequence). -/
theorem C5_tags_ordered_fail_fast (resolver : NaiveDT → Option Int) :
    (∀ (r : Rule) (txt : String) (sp : Span) (children : List ParseTree)
       (ts : List Tag),
       tags resolver (ParseTree.node r txt sp children) = Res.ok ts ↔
         List.Forall₂ (fun c t => tag resolver c = Res.ok t) children ts) ∧
    (∀ (r : Rule) (txt : String) (sp : Span) (pre : List ParseTree)
       (c : ParseTree) (post : List ParseTree) (e : ParseError),
       (∀ x ∈ pre, ∃ t, tag resolver x = Res.ok t) →
       tag resolver c = Res.err e →
       tags resolver (ParseTree.node r txt sp (pre ++ c :: post)) =
         Res.err e) := by
  constructor
  · intro r txt sp children ts
    exact tagsFold_ok_iff resolver children ts
  · intro r txt sp pre c post e hpre hc
    exact tagsFold_first_err resolver pre c post e hpre hc

/-- Witness for C5: in a three-tag sibling list whose middle tag carries an
overflowing number value, the list decode returns exactly that overflow
error. -/
theorem C5_tags_ordered_fail_fast_witness :
    tags (fun _ => none) (ParseTree.node Rule.tags "" ⟨0, 20⟩
      ([ParseTree.node Rule.tag "a" ⟨0, 1⟩
          [ParseTree.node Rule.ident "a" ⟨0, 1⟩ []]] ++
        ParseTree.node Rule.tag "x" ⟨2, 15⟩
          [ParseTree.node Rule.value "2147483648" ⟨4, 14⟩
            [ParseTree.node Rule.number "2147483648" ⟨4, 14⟩
              [ParseTree.node Rule.numeral "2147483648" ⟨4, 14⟩ []]]] ::
        [ParseTree.node Rule.tag "b" ⟨16, 17⟩
          [ParseTree.node Rule.ident "b" ⟨16, 17⟩ []]])) =
      Res.err ⟨numberErrMsg "2147483648", ⟨4, 14⟩⟩ := by
  have hn : number (ParseTree.node Rule.number "2147483648" ⟨4, 14⟩
      [ParseTree.node Rule.numeral "2147483648" ⟨4, 14⟩ []]) =
      Res.err ⟨numberErrMsg "2147483648", ⟨4, 14⟩⟩ := by rfl
  refine (C5_tags_ordered_fail_fast (fun _ => none)).2 Rule.tags "" ⟨0, 20⟩
    _ _ _ ⟨numberErrMsg "2147483648", ⟨4, 14⟩⟩ ?_ ?_
  · intro x hx
    simp only [List.mem_singleton] at hx
    subst hx
    refine ⟨Tag.mk none "a" [] [] [], ?_⟩
    simp [tag, tagFold, ParseTree.children, ParseTree.text, ident, Res.bind,
      Res.ok, Tag.new, Tag.setName]
  · simp [tag, tagFold, ParseTree.children, value, ParseTree.rule, hn,
      Res.bind, Res.err]

/-- Sequencing a non-panicking computation with a non-panicking
continuation cannot panic. -/
theorem Res.bind_ne_none {α β : Type} (x : Res α) (f : α → Res β)
    (hx : x ≠ Res.panic) (hf : ∀ a, f a ≠ Res.panic) :
    Res.bind x f ≠ Res.panic := by
  cases x with
  | none => exact absurd rfl hx
  | some ex =>
    cases ex with
    | error e => simp [Res.bind, Res.panic]
    | ok a => simpa [Res.bind, Res.panic] using hf a

/-- The tag fold cannot panic when each child's production is recognised
and its own sub-decoder does not panic. -/
theorem tagFold_no_panic (resolver : NaiveDT → Option Int) :
    ∀ (children : List ParseTree) (acc : Tag),
      (∀ c ∈ children, childStepSafe resolver c) →
      tagFold resolver children acc ≠ Res.panic := by
  intro children
  induction children with
  | nil => intro acc _; simp [tagFold, Res.ok, Res.panic]
  | cons c rest ih =>
    intro acc h
    have hc := h c (List.mem_cons_self c rest)
    have hrest : ∀ x ∈ rest, childStepSafe resolver x :=
      fun x hx => h x (List.mem_cons_of_mem c hx)
    cases c with
    | node r s sp cs =>
      cases r
      case nspace =>
        simp only [childStepSafe, ParseTree.rule] at hc
        simp only [tagFold]
        exact Res.bind_ne_none _ _ hc (fun a => ih _ hrest)
      case ident =>
        simp only [tagFold]
        refine Res.bind_ne_none _ _ ?_ (fun a => ih _ hrest)
        simp [ident, Res.ok, Res.panic]
      case value =>
        simp only [childStepSafe, ParseTree.rule] at hc
        simp only [tagFold]
        exact Res.bind_ne_none _ _ hc (fun a => ih _ hrest)
      case «attribute» =>
        simp only [childStepSafe, ParseTree.rule] at hc
        simp only [tagFold]
        exact Res.bind_ne_none _ _ hc (fun a => ih _ hrest)
      case tags =>
        simp only [childStepSafe, ParseTree.rule, ParseTree.children] at hc
        simp only [tagFold]
        exact Res.bind_ne_none _ _ hc (fun a => ih _ hrest)
      all_goals simp only [childStepSafe, ParseTree.rule] at hc

/-- C9: when every child of a tag node has a production the assembler
recognises (namespace, identifier, value, attribute, nested tag list) and
each child's own sub-decoder returns rather than panicking, the tag fold
never reaches its internal abort branch; and a synthetic first child of
any other production makes the assembler abort — `Res.panic`, which is
neither a returned `Tag` nor a reported `ParseError`. -/
theorem C9_tag_fold_contract (resolver : NaiveDT → Option Int) :
    (∀ (children : List ParseTree) (acc : Tag),
       (∀ c ∈ children, childStepSafe resolver c) →
       tagFold resolver children acc ≠ Res.panic) ∧
    (∀ (r : Rule) (s : String) (s1 : Span) (cs : List ParseTree)
       (rt : Rule) (tt : String) (st : Span) (rest : List ParseTree),
       recognizedRule r = false →
       tag resolver (ParseTree.node rt tt st
         (ParseTree.node r s s1 cs :: rest)) = Res.panic) := by
  constructor
  · exact tagFold_no_panic resolver
  · intro r s s1 cs rt tt st rest hr
    cases r <;> first
      | (simp [tag, tagFold, ParseTree.children, Res.panic]; done)
      | exact absurd hr (by simp [recognizedRule])

/-- Witness for C9: a lone identifier child keeps the fold from aborting,
while a synthetic boolean child as first child of a tag node aborts the
assembler. -/
theorem C9_tag_fold_contract_witness :
    tagFold (fun _ => none)
        [ParseTree.node Rule.ident "a" ⟨0, 1⟩ []] (Tag.new "") ≠
      Res.panic ∧
    tag (fun _ => none) (ParseTree.node Rule.tag "true" ⟨0, 4⟩
      [ParseTree.node Rule.boolean "true" ⟨0, 4⟩
        [ParseTree.node Rule.bool_true "true" ⟨0, 4⟩ []]]) = Res.panic := by
  constructor
  · refine (C9_tag_fold_contract (fun _ => none)).1 _ (Tag.new "") ?_
    intro c hcm
    simp only [List.mem_singleton] at hcm
    subst hcm
    simp [childStepSafe, ParseTree.rule]
  · exact (C9_tag_fold_contract (fun _ => none)).2 Rule.boolean "true" ⟨0, 4⟩
      [ParseTree.node Rule.bool_true "true" ⟨0, 4⟩ []] Rule.tag "true"
      ⟨0, 4⟩ [] (by rfl)

/-- C6: whenever `parse_text` succeeds, the returned root tag is the
synthetic anonymous root — no namespace, empty name, no values, no
attributes — and its child list is exactly the decoded top-level sibling
sequence. -/
theorem C6_parse_text_root (resolver : NaiveDT → Option Int)
    (g : String → Except ParseError ParseTree) (data : String) (tg : Tag)
    (h : parse_text resolver g data = Res.ok tg) :
    tg.nspace = none ∧ tg.name = "" ∧ tg.values = [] ∧ tg.attrs = [] ∧
    ∃ tree, g data = Except.ok tree ∧
      tagtree resolver tree = Res.ok tg.tags := by
  unfold parse_text at h
  cases hg : g data with
  | error e =>
    rw [hg] at h
    simp [Res.err, Res.ok] at h
  | ok tree =>
    rw [hg] at h
    dsimp only at h
    cases htt : tagtree resolver tree with
    | none => rw [htt] at h; simp [Res.bind, Res.ok] at h
    | some ex =>
      cases ex with
      | error e => rw [htt] at h; simp [Res.bind, Res.ok] at h
      | ok l =>
        rw [htt] at h
        simp [Res.bind, Res.ok] at h
        subst h
        refine ⟨rfl, rfl, rfl, rfl, tree, rfl, ?_⟩
        simpa [Tag.new, Tag.appendTags, Tag.tags] using htt

/-- Witness for C6 on a grammar returning an empty top-level sibling
list. -/
theorem C6_parse_text_root_witness :
    (Tag.mk none "" [] [] []).nspace = none ∧
    (Tag.mk none "" [] [] []).name = "" ∧
    (Tag.mk none "" [] [] []).values = [] ∧
    (Tag.mk none "" [] [] []).attrs = [] ∧
    ∃ tree,
      (fun (_ : String) =>
        (Except.ok (ParseTree.node Rule.tagtree "" ⟨0, 0⟩
          [ParseTree.node Rule.tags "" ⟨0, 0⟩ []]) :
          Except ParseError ParseTree)) "" = Except.ok tree ∧
      tagtree (fun _ => none) tree = Res.ok (Tag.mk none "" [] [] []).tags := by
  refine C6_parse_text_root (fun _ => none)
    (fun (_ : String) =>
      (Except.ok (ParseTree.node Rule.tagtree "" ⟨0, 0⟩
        [ParseTree.node Rule.tags "" ⟨0, 0⟩ []]) :
        Except ParseError ParseTree)) "" (Tag.mk none "" [] [] []) ?_
  simp [parse_text, tagtree, tags, tagsFold, ParseTree.children, Res.bind,
    Res.ok, Tag.new, Tag.appendTags]

end SDLang
